import Mathlib

/-!
Shallow embedding of the observability core of the `fall` repository
(`fall-log` and `fall-web` crates): the B3 trace-context data model,
hex rendering and parsing, the span-scoped log layer, the inbound
request middleware and the outbound client decorator.  Ambient state
(the current span of the tracing substrate, random number generation)
is passed explicitly; machine integers are `Nat` with explicit bounds.
-/

namespace Fall

/-! ## Header maps

Header maps are modelled as association lists with first-match lookup;
both the encoder and the decoder in the source use the identical literal
header names, so exact-name lookup is observationally faithful. -/

abbrev Headers := List (String × String)

/-- First-match lookup in an association list, the model of
`HeaderMap::get` and of `HashMap::get` on string keys. -/
def lookupKV : List (String × String) → String → Option String
  | [], _ => none
  | (k, v) :: rest, key => if k = key then some v else lookupKV rest key

/-- Insert-or-replace in an association list, the model of
`HashMap::insert` on string keys. -/
def insertKV : List (String × String) → String → String → List (String × String)
  | [], k, v => [(k, v)]
  | (k1, v1) :: rest, k, v =>
      if k1 = k then (k, v) :: rest else (k1, v1) :: insertKV rest k v

theorem lookupKV_mem {l : List (String × String)} {k v : String}
    (h : lookupKV l k = some v) : (k, v) ∈ l := by
  induction l with
  | nil => simp [lookupKV] at h
  | cons p rest ih =>
    by_cases hk : p.1 = k
    · cases p
      simp_all [lookupKV]
    · cases p
      simp only [lookupKV, if_neg hk] at h
      exact List.mem_cons_of_mem _ (ih h)

/-! ## Hex rendering: `u64_hex` in `fall-log/src/lib.rs`

`format!("{:016x}", i)` on a `u64` always prints exactly 16 lowercase hex
digits with leading zeros, big-endian. -/

/-- One lowercase hex digit: `0`-`9` for values below ten, `a`-`f` above. -/
def hexDigitChar (d : Nat) : Char :=
  if d < 10 then Char.ofNat (48 + d) else Char.ofNat (87 + d)

/-- Big-endian fixed-width hex digit list of a number. -/
def hexChars : Nat → Nat → List Char
  | 0, _ => []
  | w + 1, i => hexChars w (i / 16) ++ [hexDigitChar (i % 16)]

/-- Embedding of `u64_hex` (`format!("{:016x}", i)` on a `u64`): the
zero-padded 16-digit lowercase hex rendering. -/
def u64_hex (i : Nat) : String :=
  String.mk (hexChars 16 i)

theorem hexChars_length (w i : Nat) : (hexChars w i).length = w := by
  induction w generalizing i with
  | zero => simp [hexChars]
  | succ w ih => simp [hexChars, ih]

theorem mem_hexChars {w i : Nat} {c : Char} (h : c ∈ hexChars w i) :
    ∃ d, d < 16 ∧ c = hexDigitChar d := by
  induction w generalizing i with
  | zero => simp [hexChars] at h
  | succ w ih =>
    simp only [hexChars, List.mem_append, List.mem_singleton] at h
    rcases h with h | h
    · exact ih h
    · exact ⟨i % 16, Nat.mod_lt _ (by omega), h⟩

theorem u64_hex_length (i : Nat) : (u64_hex i).length = 16 := by
  simp [u64_hex, String.length, hexChars_length]

/-! ## Hex parsing: `u64::from_str_radix(-, 16)`

The Rust parser strips one optional sign, requires at least one digit,
accepts `0-9`, `a-f`, `A-F`, and fails on overflow past `2^64 - 1`.
Checked arithmetic at each step is equivalent to one final bound check
because the accumulator is monotone. -/

/-- Embedding of `char::to_digit(16)`. -/
def to_digit16 (c : Char) : Option Nat :=
  if 48 ≤ c.toNat ∧ c.toNat ≤ 57 then some (c.toNat - 48)
  else if 97 ≤ c.toNat ∧ c.toNat ≤ 102 then some (c.toNat - 97 + 10)
  else if 65 ≤ c.toNat ∧ c.toNat ≤ 70 then some (c.toNat - 65 + 10)
  else none

/-- Left fold of the digit accumulator `acc * 16 + digit`; `none` on the
first character that is not a hex digit. -/
def parseHexAcc : Nat → List Char → Option Nat
  | a, [] => some a
  | a, c :: cs =>
      match to_digit16 c with
      | some d => parseHexAcc (a * 16 + d) cs
      | none => none

/-- Digit run of `u64::from_str_radix(-, 16)` after an optional `+` sign:
at least one digit, all valid, value below `2 ^ 64`. -/
def parseHexDigitsPos (ds : List Char) : Option Nat :=
  if ds.isEmpty then none
  else
    match parseHexAcc 0 ds with
    | some v => if v < 2 ^ 64 then some v else none
    | none => none

/-- Digit run after a `-` sign on the unsigned parser: each checked
subtraction from zero underflows unless every digit is zero, so only the
value zero parses. -/
def parseHexDigitsNeg (ds : List Char) : Option Nat :=
  if ds.isEmpty then none
  else
    match parseHexAcc 0 ds with
    | some 0 => some 0
    | _ => none

/-- Embedding of `u64::from_str_radix(s, 16)`. -/
def from_str_radix16 (s : String) : Option Nat :=
  match s.data with
  | [] => none
  | c :: cs =>
      if c = '+' then parseHexDigitsPos cs
      else if c = '-' then parseHexDigitsNeg cs
      else parseHexDigitsPos (c :: cs)

theorem to_digit16_hexDigitChar {d : Nat} (h : d < 16) :
    to_digit16 (hexDigitChar d) = some d := by
  interval_cases d <;> rfl

theorem parseHexAcc_append (xs ys : List Char) (a : Nat) :
    parseHexAcc a (xs ++ ys) =
      (parseHexAcc a xs).bind (fun v => parseHexAcc v ys) := by
  induction xs generalizing a with
  | nil => simp [parseHexAcc]
  | cons c cs ih =>
    simp only [List.cons_append, parseHexAcc]
    cases to_digit16 c with
    | none => simp
    | some d => simp [ih]

theorem parseHexAcc_hexChars (w i a : Nat) :
    parseHexAcc a (hexChars w i) = some (a * 16 ^ w + i % 16 ^ w) := by
  induction w generalizing i a with
  | zero => simp [hexChars, parseHexAcc, Nat.mod_one]
  | succ w ih =>
    rw [hexChars, parseHexAcc_append, ih]
    simp only [Option.some_bind, parseHexAcc,
      to_digit16_hexDigitChar (Nat.mod_lt i (by omega : (0:Nat) < 16))]
    congr 1
    have h1 : (16 : Nat) ^ (w + 1) = 16 * 16 ^ w := by ring
    have h2 : i % (16 * 16 ^ w) = i % 16 + 16 * (i / 16 % 16 ^ w) := Nat.mod_mul
    rw [h1, h2]
    ring

theorem hexDigitChar_not_sign {d : Nat} (h : d < 16) :
    hexDigitChar d ≠ '+' ∧ hexDigitChar d ≠ '-' := by
  interval_cases d <;> exact ⟨by decide, by decide⟩

/-- Parsing inverts rendering on every 64-bit value. -/
theorem from_str_radix16_u64_hex {i : Nat} (h : i < 2 ^ 64) :
    from_str_radix16 (u64_hex i) = some i := by
  have hlen : (hexChars 16 i).length = 16 := hexChars_length 16 i
  have hnum : i < 18446744073709551616 := lt_of_lt_of_eq h (by norm_num)
  have hmod : i % 18446744073709551616 = i := Nat.mod_eq_of_lt hnum
  cases hcs : hexChars 16 i with
  | nil => rw [hcs] at hlen; simp at hlen
  | cons c cs =>
    have hc : c ∈ hexChars 16 i := by rw [hcs]; exact List.mem_cons_self c cs
    obtain ⟨d, hd, hcd⟩ := mem_hexChars hc
    obtain ⟨hplus, hminus⟩ := hexDigitChar_not_sign hd
    have : from_str_radix16 (u64_hex i) = parseHexDigitsPos (c :: cs) := by
      show from_str_radix16 (String.mk (hexChars 16 i)) = _
      rw [hcs]
      show (if c = '+' then _ else if c = '-' then _ else parseHexDigitsPos (c :: cs)) = _
      rw [if_neg (hcd ▸ hplus), if_neg (hcd ▸ hminus)]
    rw [this, parseHexDigitsPos, if_neg (by simp), ← hcs, parseHexAcc_hexChars]
    simp [hmod, hnum]

theorem u64_hex_injOn {a b : Nat} (ha : a < 2 ^ 64) (hb : b < 2 ^ 64)
    (h : u64_hex a = u64_hex b) : a = b := by
  have := from_str_radix16_u64_hex ha
  rw [h, from_str_radix16_u64_hex hb] at this
  exact (Option.some_inj.mp this).symm

/-! ## OpenTrace: the trace context value object -/

/-- Embedding of `OpenTrace` from `fall-log/src/lib.rs`: the three id
fields are stored as already-rendered strings, the absent parent as the
empty string. -/
structure OpenTrace where
  trace_id : String
  span_id : String
  parent_span_id : String
deriving DecidableEq, Repr

/-- Embedding of `OpenTrace::new`: hex-encodes all ids, the absent
parent becomes the empty string. -/
def OpenTrace.new (trace_id span_id : Nat) (parent_span_id : Option Nat) : OpenTrace :=
  { trace_id := u64_hex trace_id
    span_id := u64_hex span_id
    parent_span_id := (parent_span_id.map u64_hex).getD "" }

/-! ## ExtendedLog: the per-span field bag of `fall-log` -/

def TRACE_ID : String := "trace_id"
def SPAN_ID : String := "span_id"
def PARENT_SPAN_ID : String := "parent_span_id"
def PADDING : String := "padding"

/-- Embedding of `ExtendedLog`: the per-span map from field name to the
already-stringified value, plus the ordered key list the formatter
renders.  The hash map is modelled as an association list. -/
structure ExtendedLog where
  data : List (String × String)
  keys : List String
deriving DecidableEq, Repr

/-- Embedding of `ExtendedLog::default`: empty data, the four default
keys in order. -/
def ExtendedLog.default : ExtendedLog :=
  { data := [], keys := [TRACE_ID, SPAN_ID, PARENT_SPAN_ID, PADDING] }

/-- Embedding of `Visit::record_debug` for `ExtendedLog`: a field whose
name is among the declared keys is stored (values arrive already
debug-formatted); any other field is silently dropped. -/
def ExtendedLog.record_field (e : ExtendedLog) (name value : String) : ExtendedLog :=
  if name ∈ e.keys then { e with data := insertKV e.data name value } else e

/-! ## The ambient current span

The tracing substrate holds at most one current span per task; the log
layer and the helpers only ever read its attached `ExtendedLog`.  That
ambient state is passed explicitly as `Option ExtendedLog` (`none` means
there is no current span), and each random 64-bit draw of `rand_u64` is
passed explicitly as a `fresh` argument. -/

/-- Embedding of `current_trace_id` in `fall-log/src/lib.rs`: the
`trace_id` field stored on the current span, when both exist. -/
def current_trace_id (store : Option ExtendedLog) : Option String :=
  store.bind fun ext => lookupKV ext.data TRACE_ID

/-- Embedding of `new_child_span` in `fall-log/src/lib.rs`: inherit the
stored `trace_id`, draw a fresh random span id, and set the parent to
the stored `span_id`; `none` when there is no current span or a needed
field is missing.  The span store is only read (the source takes the
extension through an immutable borrow). -/
def new_child_span (store : Option ExtendedLog) (fresh : Nat) : Option OpenTrace :=
  match store with
  | none => none
  | some ext =>
      match lookupKV ext.data TRACE_ID, lookupKV ext.data SPAN_ID with
      | some t, some s =>
          some { trace_id := t, span_id := u64_hex fresh, parent_span_id := s }
      | _, _ => none

/-- Modelled from the spec: `next_open_trace` is imported by
`fall-web/src/client.rs` from a `fall-log` variant whose source is not
under `src/`.  Per spec section 4.2 (`next_child_context`) it inherits
the current `trace_id`, generates a fresh random `span_id` and sets
`parent_span_id` to the current `span_id` — the same semantics as
`new_child_span` in `src/fall-log/src/lib.rs`. -/
def next_open_trace (store : Option ExtendedLog) (fresh : Nat) : Option OpenTrace :=
  new_child_span store fresh

/-! ## Level filtering: `FallLog::enabled`

The `tracing` `Level` stores the discriminants TRACE=0, DEBUG=1, INFO=2,
WARN=3, ERROR=4 and implements its ordering with the comparison flipped,
so that ERROR is the least and TRACE the greatest level. -/

inductive Level where
  | TRACE
  | DEBUG
  | INFO
  | WARN
  | ERROR
deriving DecidableEq, Repr

/-- The `tracing-core` discriminant of a level. -/
def Level.inner : Level → Nat
  | .TRACE => 0
  | .DEBUG => 1
  | .INFO => 2
  | .WARN => 3
  | .ERROR => 4

/-- Embedding of the `tracing-core` comparison `a <= b` on levels: the
discriminant comparison is flipped, making ERROR least. -/
def Level.le (a b : Level) : Bool :=
  b.inner ≤ a.inner

/-- The severity rank stated from the words of the spec, for comparison
against the source ordering: ERROR < WARN < INFO < DEBUG < TRACE. -/
def specSeverity : Level → Nat
  | .ERROR => 0
  | .WARN => 1
  | .INFO => 2
  | .DEBUG => 3
  | .TRACE => 4

/-- Embedding of the `FallLog` layer configuration.  The byte sink
behind the mutex is I/O and is omitted; the three pure configuration
fields are kept. -/
structure FallLog where
  max_level : Level
  app_name : String
  extend_fields : List String

/-- Embedding of `FallLog::enabled`:
`metadata.level() <= &self.max_level`. -/
def FallLog.enabled (f : FallLog) (metaLevel : Level) : Bool :=
  Level.le metaLevel f.max_level

/-- Embedding of `FallLog::new_span`: allocate a default `ExtendedLog`,
push the configured extension keys, then record the initial span
attributes in order (values arrive already debug-formatted). -/
def FallLog.new_span (f : FallLog) (attrs : List (String × String)) : ExtendedLog :=
  let info : ExtendedLog :=
    { ExtendedLog.default with
        keys := ExtendedLog.default.keys ++ f.extend_fields }
  attrs.foldl (fun e kv => e.record_field kv.1 kv.2) info

/-! ## The event line bracket: `Display for ExtendedLog` and `on_event` -/

/-- One iteration of the key loop in `Display for ExtendedLog`: the
accumulated output plus the flag that a first key has been seen.  A
separating comma is written before every key except the first, then the
stored value when present. -/
def displayStep (data : List (String × String)) (acc : String × Bool) (k : String) :
    String × Bool :=
  let s := if acc.2 then acc.1 ++ "," else acc.1
  match lookupKV data k with
  | some v => (s ++ v, true)
  | none => (s, true)

/-- Embedding of `Display for ExtendedLog`: fold the key loop from the
empty output with the flag unset. -/
def ExtendedLog.display (e : ExtendedLog) : String :=
  (e.keys.foldl (displayStep e.data) ("", false)).1

/-- Embedding of the bracketed segment written by `FallLog::on_event`:
`" [{app},{info}]"` when the current span carries an `ExtendedLog`,
`" [{app},]"` otherwise (the leading space is not part of the bracket). -/
def bracketSegment (app_name : String) (cur : Option ExtendedLog) : String :=
  match cur with
  | some info => "[" ++ app_name ++ "," ++ info.display ++ "]"
  | none => "[" ++ app_name ++ ",]"

/-- Stated from the words of the spec, for comparison against the source
formatter: the ordered values joined by single commas. -/
def specJoinVals : List String → String
  | [] => ""
  | [v] => v
  | v :: vs => v ++ ("," ++ specJoinVals (vs))

/-- Number of comma characters in a string. -/
def countComma (s : String) : Nat :=
  s.data.count ','

/-! ## Outbound client: `fall-web/src/client.rs` -/

inductive Method where
  | GET
  | HEAD
  | PUT
  | POST
  | PATCH
  | DELETE
  | OPTIONS
deriving DecidableEq, Repr

/-- Embedding of the outbound request builder: the method and the
accumulated header map (`ClientRequest::header` appends). -/
structure ClientRequest where
  method : Method
  headers : Headers
deriving DecidableEq, Repr

/-- Embedding of `ClientRequest::header`: append one header pair. -/
def ClientRequest.header (req : ClientRequest) (k v : String) : ClientRequest :=
  { req with headers := req.headers ++ [(k, v)] }

/-- Embedding of the `Some` branch of `ClientRequestExt::set_trace`: the
three `.header` calls writing the trace context onto the request.  All
three headers are written, the parent too even when its rendered value
is the empty string. -/
def ClientRequest.set_trace_headers (req : ClientRequest) (s : OpenTrace) : ClientRequest :=
  ((req.header "X-B3-TraceId" s.trace_id).header "X-B3-SpanId" s.span_id).header
    "X-B3-ParentSpanId" s.parent_span_id

/-- Embedding of `ClientRequestExt::set_trace`: write the context that
`next_open_trace()` returns, or leave the request unchanged when there
is none. -/
def ClientRequest.set_trace (req : ClientRequest) (store : Option ExtendedLog)
    (fresh : Nat) : ClientRequest :=
  match next_open_trace store fresh with
  | some s => req.set_trace_headers s
  | none => req

/-- Embedding of `FallClient`: the default header map and the
per-request configuration hook (the wrapped `awc` client itself is
I/O and is omitted). -/
structure FallClient where
  headers : Headers
  func : Option ExtendedLog → Nat → ClientRequest → ClientRequest

/-- Embedding of `FallClient::new`: empty default headers, the hook is
`set_trace`. -/
def FallClient.new : FallClient :=
  { headers := [], func := fun store fresh req => req.set_trace store fresh }

/-- Embedding of `FallClient::pre`: apply the configured hook, then
append every default header. -/
def FallClient.pre (c : FallClient) (store : Option ExtendedLog) (fresh : Nat)
    (req : ClientRequest) : ClientRequest :=
  let req := c.func store fresh req
  { req with headers := req.headers ++ c.headers }

/-- Embedding of `FallClient::request`: build a fresh request for the
method and run it through `pre`. -/
def FallClient.request (c : FallClient) (m : Method) (store : Option ExtendedLog)
    (fresh : Nat) : ClientRequest :=
  c.pre store fresh { method := m, headers := [] }

/-- Embedding of `FallClient::get`. -/
def FallClient.get (c : FallClient) (store : Option ExtendedLog) (fresh : Nat) :
    ClientRequest :=
  c.request Method.GET store fresh

/-- Embedding of `FallClient::head`. -/
def FallClient.head (c : FallClient) (store : Option ExtendedLog) (fresh : Nat) :
    ClientRequest :=
  c.request Method.HEAD store fresh

/-- Embedding of `FallClient::put`. -/
def FallClient.put (c : FallClient) (store : Option ExtendedLog) (fresh : Nat) :
    ClientRequest :=
  c.request Method.PUT store fresh

/-- Embedding of `FallClient::post`. -/
def FallClient.post (c : FallClient) (store : Option ExtendedLog) (fresh : Nat) :
    ClientRequest :=
  c.request Method.POST store fresh

/-- Embedding of `FallClient::patch`. -/
def FallClient.patch (c : FallClient) (store : Option ExtendedLog) (fresh : Nat) :
    ClientRequest :=
  c.request Method.PATCH store fresh

/-- Embedding of `FallClient::delete`. -/
def FallClient.delete (c : FallClient) (store : Option ExtendedLog) (fresh : Nat) :
    ClientRequest :=
  c.request Method.DELETE store fresh

/-- Embedding of `FallClient::options`. -/
def FallClient.options (c : FallClient) (store : Option ExtendedLog) (fresh : Nat) :
    ClientRequest :=
  c.request Method.OPTIONS store fresh

/-! ## Inbound header parsing: `from_req` in `fall-web/src/web.rs` -/

/-- Embedding of `HeaderValue::to_str`: succeeds only when every byte is
visible ASCII or horizontal tab. -/
def header_to_str (v : String) : Option String :=
  if v.data.all (fun c => (32 ≤ c.toNat && c.toNat < 127) || c.toNat == 9) then some v
  else none

/-- Embedding of `read_header_as_u64`: look the header up, convert it to
a string, parse it as hex; any failure yields `none`. -/
def read_header_as_u64 (name : String) (req : Headers) : Option Nat :=
  ((lookupKV req name).bind header_to_str).bind from_str_radix16

/-- Embedding of `from_req`: trace id from the header or a fresh random
draw, span id from the header or the trace id, parent from the header or
absent.  Total: parse failures silently fall back. -/
def from_req (req : Headers) (rand : Nat) : OpenTrace :=
  let trace_id :=
    match read_header_as_u64 "X-B3-TraceId" req with
    | some v => v
    | none => rand
  let span_id :=
    match read_header_as_u64 "X-B3-SpanId" req with
    | some v => v
    | none => trace_id
  OpenTrace.new trace_id span_id (read_header_as_u64 "X-B3-ParentSpanId" req)

/-! ## Errors and responses: `fall-web/src/error.rs` -/

/-- Embedding of `FallError`.  The wrapped `io::Error` and boxed error
are modelled by their display strings. -/
inductive FallError where
  | IO_ERROR (msg : String)
  | HTTP_ERROR (status : Nat) (err : Option String)
  | REMOTE_ERROR (status : Nat) (body : String)
deriving DecidableEq, Repr

/-- Embedding of `ResponseError::status_code` for `FallError`. -/
def FallError.status_code : FallError → Nat
  | .IO_ERROR _ => 500
  | .HTTP_ERROR s _ => s
  | .REMOTE_ERROR s _ => s

/-- The canonical reason phrase a `StatusCode` displays after its
number; only the codes the development evaluates are tabulated. -/
def statusReason (s : Nat) : String :=
  if s = 404 then "Not Found"
  else if s = 500 then "Internal Server Error"
  else ""

/-- Embedding of the `Display` of `StatusCode`: number, space, reason. -/
def statusDisplay (s : Nat) : String :=
  toString s ++ " " ++ statusReason s

/-- Embedding of `Display for FallError`. -/
def FallError.display : FallError → String
  | .IO_ERROR m => m
  | .HTTP_ERROR s none => statusDisplay s
  | .HTTP_ERROR _ (some es) => es
  | .REMOTE_ERROR _ o => o

/-- The canonical JSON error body `ErrorBody`; serialisation of this
plain record never fails, so the body is kept structured. -/
structure ErrorBody where
  trace_id : Option String
  status : Nat
  message : String
deriving DecidableEq, Repr

/-- A response body: either raw content or the serialised canonical
error body. -/
inductive Body where
  | content (s : String)
  | json (e : ErrorBody)
deriving DecidableEq, Repr

/-- Embedding of a `ServiceResponse`, projected to status and body. -/
structure ServiceResponse where
  status : Nat
  body : Body
deriving DecidableEq, Repr

/-- Embedding of `ResponseError::error_response` for `FallError`: a
remote error carries its stored body verbatim; every other error becomes
the canonical JSON `ErrorBody` with the current trace id. -/
def FallError.error_response (e : FallError) (store : Option ExtendedLog) :
    ServiceResponse :=
  match e with
  | .REMOTE_ERROR s m => { status := s, body := Body.content m }
  | _ =>
      { status := e.status_code
        body := Body.json
          { trace_id := current_trace_id store
            status := e.status_code
            message := e.display } }

/-! ## Middleware: `fall-web/src/lib.rs` and `fall-web/src/web.rs` -/

/-- Embedding of the default `RequestHandler::post_response`: a 404
response is rebuilt from `HTTP_ERROR(status, None)`; every other
response passes through unchanged. -/
def post_response (store : Option ExtendedLog) (res : ServiceResponse) :
    ServiceResponse :=
  if res.status = 404 then (FallError.HTTP_ERROR res.status none).error_response store
  else res

/-- Embedding of `FallMiddleware::call` after the span is opened: the
awaited `pre_request` result, the inner service outcome and the
`post_response` hook are explicit.  An `Err` of the inner service is an
opaque `actix` error, modelled by a string. -/
def FallMiddleware.call (store : Option ExtendedLog)
    (pre_result : Except FallError Unit)
    (inner : Except String ServiceResponse)
    (post_hook : ServiceResponse → ServiceResponse) : Except String ServiceResponse :=
  (match pre_result with
   | .ok _ => inner
   | .error e => .ok (e.error_response store)).map post_hook

/-! ## Supporting lemmas -/

theorem hexDigitChar_mem_charset {d : Nat} (h : d < 16) :
    hexDigitChar d ∈ ("0123456789abcdef" : String).data := by
  interval_cases d <;> decide

theorem u64_hex_data_lowercase (i : Nat) :
    ∀ c ∈ (u64_hex i).data, c ∈ ("0123456789abcdef" : String).data := by
  intro c hc
  obtain ⟨d, hd, rfl⟩ := mem_hexChars (show c ∈ hexChars 16 i from hc)
  exact hexDigitChar_mem_charset hd

theorem header_to_str_u64_hex (i : Nat) :
    header_to_str (u64_hex i) = some (u64_hex i) := by
  have hall : ((u64_hex i).data.all
      (fun c => (32 ≤ c.toNat && c.toNat < 127) || c.toNat == 9)) = true := by
    rw [List.all_eq_true]
    intro c hc
    obtain ⟨d, hd, rfl⟩ := mem_hexChars (show c ∈ hexChars 16 i from hc)
    interval_cases d <;> decide
  simp [header_to_str, hall]

theorem countComma_append (a b : String) :
    countComma (a ++ b) = countComma a + countComma b := by
  simp [countComma, String.data_append, List.count_append]

theorem count_foldl_display (data : List (String × String))
    (hvals : ∀ p ∈ data, countComma p.2 = 0) (ks : List String) :
    ∀ (s : String) (b : Bool),
      countComma ((ks.foldl (displayStep data) (s, b)).1) =
        countComma s + (if b then ks.length else ks.length - 1) := by
  induction ks with
  | nil => intro s b; cases b <;> simp
  | cons k ks ih =>
    intro s b
    have c1 : countComma "," = 1 := by decide
    have hpre : countComma (if b then s ++ "," else s) =
        countComma s + (if b then 1 else 0) := by
      cases b <;> simp [countComma_append, c1]
    rw [List.foldl_cons]
    cases hl : lookupKV data k with
    | some v =>
      have hv : countComma v = 0 := hvals _ (lookupKV_mem hl)
      have hstep : displayStep data (s, b) k = ((if b then s ++ "," else s) ++ v, true) := by
        simp [displayStep, hl]
      rw [hstep, ih, countComma_append, hpre, hv]
      cases b <;> simp <;> omega
    | none =>
      have hstep : displayStep data (s, b) k = ((if b then s ++ "," else s), true) := by
        simp [displayStep, hl]
      rw [hstep, ih, hpre]
      cases b <;> simp <;> omega

theorem countComma_display (e : ExtendedLog)
    (hvals : ∀ p ∈ e.data, countComma p.2 = 0) :
    countComma e.display = e.keys.length - 1 := by
  unfold ExtendedLog.display
  rw [count_foldl_display e.data hvals e.keys "" false]
  have h0 : countComma "" = 0 := by decide
  simp [h0]

/-- The tail of the join: a comma and the stored value for each
remaining key. -/
def tailJoin (data : List (String × String)) : List String → String
  | [] => ""
  | k :: ks => ("," ++ ((lookupKV data k).getD "")) ++ tailJoin data ks

/-- The tail of the spec-side join over already-extracted values. -/
def specTail : List String → String
  | [] => ""
  | y :: ys => "," ++ y ++ specTail ys

theorem foldl_display_true (data : List (String × String)) (ks : List String) :
    ∀ s : String, (ks.foldl (displayStep data) (s, true)).1 = s ++ tailJoin data ks := by
  induction ks with
  | nil => intro s; simp [tailJoin, String.append_empty]
  | cons k ks ih =>
    intro s
    rw [List.foldl_cons]
    cases hl : lookupKV data k with
    | some v =>
      have hstep : displayStep data (s, true) k = (s ++ "," ++ v, true) := by
        simp [displayStep, hl]
      rw [hstep, ih, tailJoin]
      simp [hl, String.append_assoc]
    | none =>
      have hstep : displayStep data (s, true) k = (s ++ ",", true) := by
        simp [displayStep, hl]
      rw [hstep, ih, tailJoin]
      simp [hl, String.append_assoc, String.append_empty]

theorem tailJoin_eq_specTail (data : List (String × String)) (ks : List String) :
    tailJoin data ks = specTail (ks.map (fun k => (lookupKV data k).getD "")) := by
  induction ks with
  | nil => rfl
  | cons k ks ih =>
    rw [tailJoin, List.map_cons, specTail, ih, String.append_assoc]

theorem specJoinVals_cons (x : String) (l : List String) :
    specJoinVals (x :: l) = x ++ specTail l := by
  induction l generalizing x with
  | nil => simp [specJoinVals, specTail, String.append_empty]
  | cons y ys ih =>
    have hx : specJoinVals (x :: y :: ys) = x ++ ("," ++ specJoinVals (y :: ys)) := by
      simp [specJoinVals]
    rw [hx, ih, specTail]
    simp [String.append_assoc]

theorem display_eq_specJoinVals (e : ExtendedLog) :
    e.display = specJoinVals (e.keys.map (fun k => (lookupKV e.data k).getD "")) := by
  unfold ExtendedLog.display
  cases hk : e.keys with
  | nil => simp [specJoinVals]
  | cons k ks =>
    rw [List.foldl_cons, List.map_cons, specJoinVals_cons, ← tailJoin_eq_specTail]
    cases hl : lookupKV e.data k with
    | some v =>
      have hstep : displayStep e.data ("", false) k = (v, true) := by
        simp [displayStep, hl, String.empty_append]
      rw [hstep, foldl_display_true]
      simp [hl, String.empty_append]
    | none =>
      have hstep : displayStep e.data ("", false) k = ("", true) := by
        simp [displayStep, hl]
      rw [hstep, foldl_display_true]
      simp [hl, String.empty_append]

theorem record_field_keys (e : ExtendedLog) (n v : String) :
    (e.record_field n v).keys = e.keys := by
  unfold ExtendedLog.record_field
  split <;> rfl

theorem foldl_record_keys (attrs : List (String × String)) :
    ∀ info : ExtendedLog,
      (attrs.foldl (fun e kv => e.record_field kv.1 kv.2) info).keys = info.keys := by
  induction attrs with
  | nil => intro info; rfl
  | cons a as ih => intro info; rw [List.foldl_cons, ih, record_field_keys]

theorem new_span_keys (f : FallLog) (attrs : List (String × String)) :
    (f.new_span attrs).keys = [TRACE_ID, SPAN_ID, PARENT_SPAN_ID, PADDING] ++ f.extend_fields := by
  unfold FallLog.new_span
  rw [foldl_record_keys]
  rfl

/-- Decoding the three literal B3 headers written by the encoder. -/
theorem from_req_b3_headers (t s rand : Nat) (pp : String)
    (ht : t < 2 ^ 64) (hs : s < 2 ^ 64) :
    from_req [("X-B3-TraceId", u64_hex t), ("X-B3-SpanId", u64_hex s),
        ("X-B3-ParentSpanId", pp)] rand =
      OpenTrace.new t s ((header_to_str pp).bind from_str_radix16) := by
  have l1 : read_header_as_u64 "X-B3-TraceId"
      [("X-B3-TraceId", u64_hex t), ("X-B3-SpanId", u64_hex s),
       ("X-B3-ParentSpanId", pp)] = some t := by
    have hget : lookupKV [("X-B3-TraceId", u64_hex t), ("X-B3-SpanId", u64_hex s),
        ("X-B3-ParentSpanId", pp)] "X-B3-TraceId" = some (u64_hex t) := rfl
    rw [read_header_as_u64, hget, Option.some_bind, header_to_str_u64_hex,
      Option.some_bind, from_str_radix16_u64_hex ht]
  have l2 : read_header_as_u64 "X-B3-SpanId"
      [("X-B3-TraceId", u64_hex t), ("X-B3-SpanId", u64_hex s),
       ("X-B3-ParentSpanId", pp)] = some s := by
    have hget : lookupKV [("X-B3-TraceId", u64_hex t), ("X-B3-SpanId", u64_hex s),
        ("X-B3-ParentSpanId", pp)] "X-B3-SpanId" = some (u64_hex s) := rfl
    rw [read_header_as_u64, hget, Option.some_bind, header_to_str_u64_hex,
      Option.some_bind, from_str_radix16_u64_hex hs]
  have l3 : read_header_as_u64 "X-B3-ParentSpanId"
      [("X-B3-TraceId", u64_hex t), ("X-B3-SpanId", u64_hex s),
       ("X-B3-ParentSpanId", pp)] = (header_to_str pp).bind from_str_radix16 := by
    have hget : lookupKV [("X-B3-TraceId", u64_hex t), ("X-B3-SpanId", u64_hex s),
        ("X-B3-ParentSpanId", pp)] "X-B3-ParentSpanId" = some pp := rfl
    rw [read_header_as_u64, hget, Option.some_bind]
  simp only [from_req, l1, l2, l3]

/-! ## Claim theorems -/

/-- C1: for every context whose trace and span ids are 16-hex renderings
of 64-bit values and whose parent is such a rendering or empty, writing
the three B3 headers with `set_trace` and decoding them back with
`from_req` returns the original context, with the parent present and
with it absent. -/
theorem c1_b3_roundtrip (m : Method) (t s p rand : Nat)
    (ht : t < 2 ^ 64) (hs : s < 2 ^ 64) (hp : p < 2 ^ 64) :
    from_req
        ((ClientRequest.set_trace_headers { method := m, headers := [] }
            { trace_id := u64_hex t, span_id := u64_hex s,
              parent_span_id := u64_hex p }).headers) rand =
      { trace_id := u64_hex t, span_id := u64_hex s, parent_span_id := u64_hex p } ∧
    from_req
        ((ClientRequest.set_trace_headers { method := m, headers := [] }
            { trace_id := u64_hex t, span_id := u64_hex s,
              parent_span_id := "" }).headers) rand =
      { trace_id := u64_hex t, span_id := u64_hex s, parent_span_id := "" } := by
  constructor
  · have hh : (ClientRequest.set_trace_headers { method := m, headers := [] }
        { trace_id := u64_hex t, span_id := u64_hex s,
          parent_span_id := u64_hex p }).headers =
        [("X-B3-TraceId", u64_hex t), ("X-B3-SpanId", u64_hex s),
         ("X-B3-ParentSpanId", u64_hex p)] := by
      simp [ClientRequest.set_trace_headers, ClientRequest.header]
    rw [hh, from_req_b3_headers t s rand _ ht hs, header_to_str_u64_hex,
      Option.some_bind, from_str_radix16_u64_hex hp]
    simp [OpenTrace.new]
  · have hh : (ClientRequest.set_trace_headers { method := m, headers := [] }
        { trace_id := u64_hex t, span_id := u64_hex s,
          parent_span_id := "" }).headers =
        [("X-B3-TraceId", u64_hex t), ("X-B3-SpanId", u64_hex s),
         ("X-B3-ParentSpanId", "")] := by
      simp [ClientRequest.set_trace_headers, ClientRequest.header]
    rw [hh, from_req_b3_headers t s rand _ ht hs]
    have hparent : (header_to_str "").bind from_str_radix16 = none := rfl
    rw [hparent]
    simp [OpenTrace.new]

theorem c1_witness :
    from_req
        ((ClientRequest.set_trace_headers { method := Method.GET, headers := [] }
            { trace_id := u64_hex 1, span_id := u64_hex 2,
              parent_span_id := u64_hex 3 }).headers) 0 =
      { trace_id := u64_hex 1, span_id := u64_hex 2, parent_span_id := u64_hex 3 } :=
  (c1_b3_roundtrip Method.GET 1 2 3 0 (by decide) (by decide) (by decide)).1

/-- C2: when the current span carries an `ExtendedLog` storing trace and
span ids, `new_child_span` returns a context inheriting the trace id,
setting the parent to the current span id and drawing the fresh random
value as its own span id (distinct from the current span id whenever the
fresh rendering differs, in particular whenever the fresh draw differs
from the value the current span id renders); it returns `none` when
there is no current span.  The store itself is only read. -/
theorem c2_child_derivation (ext : ExtendedLog) (fresh : Nat) (T S : String)
    (hT : lookupKV ext.data TRACE_ID = some T)
    (hS : lookupKV ext.data SPAN_ID = some S) :
    new_child_span (some ext) fresh =
      some { trace_id := T, span_id := u64_hex fresh, parent_span_id := S } ∧
    (∀ sv, sv < 2 ^ 64 → fresh < 2 ^ 64 → S = u64_hex sv → fresh ≠ sv →
      u64_hex fresh ≠ S) ∧
    (∀ f2, new_child_span none f2 = none) := by
  refine ⟨?_, ?_, fun f2 => rfl⟩
  · simp [new_child_span, hT, hS]
  · intro sv hsv hf hSv hne
    subst hSv
    exact fun heq => hne (u64_hex_injOn hf hsv heq)

theorem c2_witness :
    lookupKV [("trace_id", "00000000000000aa"), ("span_id", "00000000000000bb")]
      TRACE_ID = some "00000000000000aa" ∧
    new_child_span
        (some { data := [("trace_id", "00000000000000aa"),
                         ("span_id", "00000000000000bb")], keys := [] }) 7 =
      some { trace_id := "00000000000000aa", span_id := u64_hex 7,
             parent_span_id := "00000000000000bb" } :=
  ⟨by decide,
   (c2_child_derivation
      { data := [("trace_id", "00000000000000aa"), ("span_id", "00000000000000bb")],
        keys := [] }
      7 "00000000000000aa" "00000000000000bb" (by decide) (by decide)).1⟩

/-- C3: `from_req` renders the parsed `X-B3-TraceId` value or a fresh
random draw, the parsed `X-B3-SpanId` value or the trace id, and the
parsed `X-B3-ParentSpanId` value or the empty parent; it is total, and
with no B3 headers the span id equals the trace id and the parent is
absent. -/
theorem c3_inbound_fallback (req : Headers) (rand : Nat) :
    (∀ t, read_header_as_u64 "X-B3-TraceId" req = some t →
      (from_req req rand).trace_id = u64_hex t) ∧
    (read_header_as_u64 "X-B3-TraceId" req = none →
      (from_req req rand).trace_id = u64_hex rand) ∧
    (∀ s, read_header_as_u64 "X-B3-SpanId" req = some s →
      (from_req req rand).span_id = u64_hex s) ∧
    (read_header_as_u64 "X-B3-SpanId" req = none →
      (from_req req rand).span_id = (from_req req rand).trace_id) ∧
    (∀ p, read_header_as_u64 "X-B3-ParentSpanId" req = some p →
      (from_req req rand).parent_span_id = u64_hex p) ∧
    (read_header_as_u64 "X-B3-ParentSpanId" req = none →
      (from_req req rand).parent_span_id = "") ∧
    (read_header_as_u64 "X-B3-TraceId" req = none →
     read_header_as_u64 "X-B3-SpanId" req = none →
     read_header_as_u64 "X-B3-ParentSpanId" req = none →
      from_req req rand = OpenTrace.new rand rand none ∧
      (from_req req rand).span_id = (from_req req rand).trace_id) := by
  refine ⟨?_, ?_, ?_, ?_, ?_, ?_, ?_⟩
  · intro t h; simp [from_req, h, OpenTrace.new]
  · intro h; simp [from_req, h, OpenTrace.new]
  · intro s h; simp [from_req, h, OpenTrace.new]
  · intro h; simp [from_req, h, OpenTrace.new]
  · intro p h; simp [from_req, h, OpenTrace.new]
  · intro h; simp [from_req, h, OpenTrace.new]
  · intro h1 h2 h3
    constructor
    · simp [from_req, h1, h2, h3]
    · simp [from_req, h1, h2, h3, OpenTrace.new]

theorem c3_witness :
    from_req [] 5 = OpenTrace.new 5 5 none ∧
    (from_req [] 5).span_id = (from_req [] 5).trace_id :=
  (c3_inbound_fallback [] 5).2.2.2.2.2.2 rfl rfl rfl

/-- C4 counterexample: encoding a context whose parent is absent (empty
string) does not omit the `X-B3-ParentSpanId` header — the header is
present, carrying the empty value. -/
theorem c4_counterexample :
    lookupKV
      ((ClientRequest.set_trace_headers { method := Method.GET, headers := [] }
          { trace_id := u64_hex 1, span_id := u64_hex 2,
            parent_span_id := "" }).headers)
      "X-B3-ParentSpanId" = some "" := by decide

/-- C4 amended: encoding appends all three headers unconditionally, and
the `X-B3-ParentSpanId` header is always sent, with the empty string as
its value when the parent is absent, rather than being omitted. -/
theorem c4_amended (req : ClientRequest) (ctx : OpenTrace) :
    (req.set_trace_headers ctx).headers =
      req.headers ++
        [("X-B3-TraceId", ctx.trace_id), ("X-B3-SpanId", ctx.span_id),
         ("X-B3-ParentSpanId", ctx.parent_span_id)] ∧
    ("X-B3-ParentSpanId", ctx.parent_span_id) ∈ (req.set_trace_headers ctx).headers := by
  constructor
  · simp [ClientRequest.set_trace_headers, ClientRequest.header]
  · simp [ClientRequest.set_trace_headers, ClientRequest.header]

/-- C5: every request built through the default `FallClient` (`request`
with any method; the verb wrappers delegate to it) carries
`X-B3-TraceId` equal to the current trace id, `X-B3-ParentSpanId` equal
to the current span id, and a 16-lowercase-hex `X-B3-SpanId` rendering
the fresh draw (distinct from the current span id whenever the fresh
draw differs from the value it renders); with no current span the built
request headers stay untouched. -/
theorem c5_outbound_propagation (m : Method) (ext : ExtendedLog) (fresh : Nat)
    (T S : String)
    (hT : lookupKV ext.data TRACE_ID = some T)
    (hS : lookupKV ext.data SPAN_ID = some S) :
    (("X-B3-TraceId", T) ∈ (FallClient.new.request m (some ext) fresh).headers ∧
     ("X-B3-ParentSpanId", S) ∈ (FallClient.new.request m (some ext) fresh).headers ∧
     ("X-B3-SpanId", u64_hex fresh) ∈ (FallClient.new.request m (some ext) fresh).headers ∧
     (u64_hex fresh).length = 16 ∧
     (∀ c ∈ (u64_hex fresh).data, c ∈ ("0123456789abcdef" : String).data) ∧
     (∀ sv, sv < 2 ^ 64 → fresh < 2 ^ 64 → S = u64_hex sv → fresh ≠ sv →
       u64_hex fresh ≠ S)) ∧
    (∀ (m2 : Method) (f2 : Nat),
      (FallClient.new.request m2 none f2).headers = []) := by
  have hreq : (FallClient.new.request m (some ext) fresh).headers =
      [("X-B3-TraceId", T), ("X-B3-SpanId", u64_hex fresh), ("X-B3-ParentSpanId", S)] := by
    simp [FallClient.request, FallClient.new, FallClient.pre, ClientRequest.set_trace,
      next_open_trace, new_child_span, hT, hS, ClientRequest.set_trace_headers,
      ClientRequest.header]
  refine ⟨⟨?_, ?_, ?_, u64_hex_length fresh, u64_hex_data_lowercase fresh, ?_⟩, ?_⟩
  · rw [hreq]; simp
  · rw [hreq]; simp
  · rw [hreq]; simp
  · intro sv hsv hf hSv hne
    subst hSv
    exact fun heq => hne (u64_hex_injOn hf hsv heq)
  · intro m2 f2
    simp [FallClient.request, FallClient.new, FallClient.pre, ClientRequest.set_trace,
      next_open_trace, new_child_span]

theorem c5_witness :
    lookupKV [("trace_id", "00000000000000aa"), ("span_id", "00000000000000bb")]
      SPAN_ID = some "00000000000000bb" ∧
    ("X-B3-TraceId", "00000000000000aa") ∈
      (FallClient.new.request Method.GET
        (some { data := [("trace_id", "00000000000000aa"),
                         ("span_id", "00000000000000bb")], keys := [] }) 9).headers :=
  ⟨by decide,
   ((c5_outbound_propagation Method.GET
      { data := [("trace_id", "00000000000000aa"), ("span_id", "00000000000000bb")],
        keys := [] }
      9 "00000000000000aa" "00000000000000bb" (by decide) (by decide)).1).1⟩

/-- C6: the bracketed segment of an event line is the app name followed
by the stored values of the span keys joined by single commas, empty
where a value is missing, so (for comma-free app name and values) it
carries the commas of the join plus the one separating the app name;
with no current span the bracket content is the app name and one
trailing comma; and a span opened by `new_span` always has the four
default keys plus the configured extensions. -/
theorem c6_bracket_shape (app : String) (e : ExtendedLog)
    (happ : countComma app = 0)
    (hvals : ∀ p ∈ e.data, countComma p.2 = 0) :
    ExtendedLog.display e =
      specJoinVals (e.keys.map (fun k => (lookupKV e.data k).getD "")) ∧
    countComma (bracketSegment app (some e)) = (e.keys.length - 1) + 1 ∧
    bracketSegment app none = "[" ++ app ++ ",]" ∧
    countComma (bracketSegment app none) = 1 ∧
    (∀ (f : FallLog) (attrs : List (String × String)),
      (f.new_span attrs).keys.length = 4 + f.extend_fields.length) := by
  have h1 : countComma "[" = 0 := by decide
  have h2 : countComma "," = 1 := by decide
  have h3 : countComma "]" = 0 := by decide
  have h4 : countComma ",]" = 1 := by decide
  refine ⟨display_eq_specJoinVals e, ?_, rfl, ?_, ?_⟩
  · show countComma ("[" ++ app ++ "," ++ e.display ++ "]") = _
    rw [countComma_append, countComma_append, countComma_append, countComma_append,
      countComma_display e hvals, happ, h1, h2, h3]
    omega
  · show countComma ("[" ++ app ++ ",]") = 1
    rw [countComma_append, countComma_append, happ, h1, h4]
  · intro f attrs
    rw [new_span_keys]
    simp
    omega

theorem c6_witness :
    countComma "svc" = 0 ∧
    (∀ p ∈ ([("trace_id", "00000000000000aa")] : List (String × String)),
      countComma p.2 = 0) ∧
    countComma
        (bracketSegment "svc"
          (some { data := [("trace_id", "00000000000000aa")],
                  keys := [TRACE_ID, SPAN_ID, PARENT_SPAN_ID, PADDING] })) =
      (4 - 1) + 1 :=
  ⟨by decide, by decide,
   (c6_bracket_shape "svc"
      { data := [("trace_id", "00000000000000aa")],
        keys := [TRACE_ID, SPAN_ID, PARENT_SPAN_ID, PADDING] }
      (by decide) (by decide)).2.1⟩

/-- C7: `enabled` holds exactly when the event level is at or above the
configured maximum in the severity order ERROR < WARN < INFO < DEBUG <
TRACE, so with max level INFO the DEBUG and TRACE levels are rejected
while ERROR, WARN and INFO pass. -/
theorem c7_level_filter :
    (∀ (app : String) (ef : List String) (l m : Level),
      (FallLog.mk m app ef).enabled l = true ↔ specSeverity l ≤ specSeverity m) ∧
    (∀ (app : String) (ef : List String),
      (FallLog.mk Level.INFO app ef).enabled Level.DEBUG = false ∧
      (FallLog.mk Level.INFO app ef).enabled Level.TRACE = false ∧
      (FallLog.mk Level.INFO app ef).enabled Level.ERROR = true ∧
      (FallLog.mk Level.INFO app ef).enabled Level.WARN = true ∧
      (FallLog.mk Level.INFO app ef).enabled Level.INFO = true) := by
  constructor
  · intro app ef l m
    cases l <;> cases m <;>
      simp [FallLog.enabled, Level.le, Level.inner, specSeverity]
  · intro app ef
    exact ⟨rfl, rfl, rfl, rfl, rfl⟩

/-- C8: every 64-bit id renders as exactly 16 lowercase hex characters,
and `OpenTrace::new` applies that same rendering to the trace id, the
span id and a present parent, while an absent parent renders empty. -/
theorem c8_hex_rendering (i t s p : Nat) (hi : i < 2 ^ 64) :
    (u64_hex i).length = 16 ∧
    (∀ c ∈ (u64_hex i).data, c ∈ ("0123456789abcdef" : String).data) ∧
    OpenTrace.new t s (some p) =
      { trace_id := u64_hex t, span_id := u64_hex s, parent_span_id := u64_hex p } ∧
    (OpenTrace.new t s none).parent_span_id = "" := by
  refine ⟨u64_hex_length i, u64_hex_data_lowercase i, ?_, rfl⟩
  simp [OpenTrace.new]

theorem c8_witness :
    255 < 2 ^ 64 ∧ (u64_hex 255).length = 16 :=
  ⟨by decide, (c8_hex_rendering 255 1 2 3 (by decide)).1⟩

/-- C9: the default `post_response` is the identity on every response
whose status is not 404, and on a 404 it rebuilds the response with the
canonical JSON error body carrying the current trace id, status 404 and
the status display message. -/
theorem c9_post_response (store : Option ExtendedLog) (res : ServiceResponse) :
    (res.status ≠ 404 → post_response store res = res) ∧
    (res.status = 404 →
      post_response store res =
        { status := 404
          body := Body.json
            { trace_id := current_trace_id store
              status := 404
              message := "404 Not Found" } }) := by
  constructor
  · intro h
    simp [post_response, h]
  · intro h
    have hmsg : statusDisplay 404 = "404 Not Found" := by decide
    simp [post_response, h, FallError.error_response, FallError.status_code,
      FallError.display, hmsg]

theorem c9_witness :
    post_response none { status := 500, body := Body.content "ok" } =
      { status := 500, body := Body.content "ok" } ∧
    post_response none { status := 404, body := Body.content "x" } =
      { status := 404
        body := Body.json { trace_id := none, status := 404,
                            message := "404 Not Found" } } :=
  ⟨(c9_post_response none { status := 500, body := Body.content "ok" }).1 (by decide),
   (c9_post_response none { status := 404, body := Body.content "x" }).2 rfl⟩

/-- C10: the middleware applies `post_response` to every successfully
produced response — the inner service result on the success path and the
response synthesized from a `pre_request` rejection, in which case the
result does not depend on the inner service at all — while an `Err` of
the inner service bypasses `post_response` and is surfaced unchanged. -/
theorem c10_post_response_routing (store : Option ExtendedLog)
    (post_hook : ServiceResponse → ServiceResponse) :
    (∀ (e : FallError) (inner : Except String ServiceResponse),
      FallMiddleware.call store (.error e) inner post_hook =
        .ok (post_hook (e.error_response store))) ∧
    (∀ r : ServiceResponse,
      FallMiddleware.call store (.ok ()) (.ok r) post_hook = .ok (post_hook r)) ∧
    (∀ msg : String,
      FallMiddleware.call store (.ok ()) (.error msg) post_hook = .error msg) :=
  ⟨fun e inner => rfl, fun r => rfl, fun msg => rfl⟩

end Fall
